import Mathlib

/-!
Verification of the myls directory-listing program (src/myls.c,
src/ls_Functions.c).  The C code is shallowly embedded: file names and
paths are byte lists, the filesystem is an explicit environment of
stat-like lookups, qsort is modelled by the stable insertion sort of
Mathlib applied to the translated C comparators, and each listing
routine is a pure function from that environment to a record describing
its observable behaviour (collected names, rendered entries, the total
header, whether the directory handle was closed, whether the routine
aborted early).
-/

namespace MyLs

-- A file name or path: the bytes of a C string, without the final NUL.
abbrev Path := List Nat

-- C strings cannot contain the NUL byte; several string lemmas need this.
def NulFree (p : Path) : Prop := ∀ c ∈ p, c ≠ 0

instance instDecidableNulFree (p : Path) : Decidable (NulFree p) :=
  inferInstanceAs (Decidable (∀ c ∈ p, c ≠ 0))

-- Metadata record returned by stat and lstat (struct stat fields used
-- by the program).
structure Stat where
  mode : Nat
  nlink : Nat
  uid : Nat
  gid : Nat
  size : Nat
  atime : Int
  mtime : Int
  ctime : Int
  ino : Nat
deriving DecidableEq

-- The filesystem environment: opendir plus readdir enumeration order,
-- the two metadata lookups (stat follows symlinks, lstat does not), and
-- the passwd and group databases.  Relative names given to stat are
-- resolved by the OS against the current working directory; the
-- environment therefore maps the literal byte string handed to each
-- call to its outcome.
structure Fs where
  dirs : Path → Option (List Path)
  stat : Path → Option Stat
  lstat : Path → Option Stat
  pw : Nat → Option Path
  grp : Nat → Option Path

-- The global option flags of myls.c (is_long_format_enabled and so on).
structure Flags where
  longFormat : Bool
  hidden : Bool
  sortTime : Bool
  sortAccess : Bool
  dirOpt : Bool
  ctimeOpt : Bool
  noSort : Bool
  inode : Bool
  column : Bool
deriving DecidableEq

def noFlags : Flags := ⟨false, false, false, false, false, false, false, false, false⟩

-- One step of the getopt switch in main (src/myls.c lines 91-128).
-- Note the deliberate fall-throughs in the C switch: option t also sets
-- the access-time flag, and option d also sets the ctime flag.
def setOpt (f : Flags) : Char → Flags
  | 'l' => {f with longFormat := true}
  | 'a' => {f with hidden := true}
  | 't' => {f with sortTime := true, sortAccess := true}
  | 'u' => {f with sortAccess := true}
  | 'd' => {f with dirOpt := true, ctimeOpt := true}
  | 'c' => {f with ctimeOpt := true}
  | 'f' => {f with noSort := true}
  | 'i' => {f with inode := true}
  | '1' => {f with column := true}
  | _ => f

-- C strcmp on NUL-free byte strings: the first differing byte decides,
-- a proper prefix is smaller.  Only the sign of the result is used.
def strcmp : Path → Path → Int
  | [], [] => 0
  | [], c :: _ => -(c : Int)
  | c :: _, [] => (c : Int)
  | c1 :: s1, c2 :: s2 => if c1 = c2 then strcmp s1 s2 else (c1 : Int) - (c2 : Int)

-- C tolower in the portable ASCII range.
def tolower (c : Nat) : Nat := if 65 ≤ c ∧ c ≤ 90 then c + 32 else c

-- src/ls_Functions.c lines 42-69.  Both arguments are stated to the OS
-- as given (bare names when called from the sorting phase).  A failing
-- stat of the first file yields 1, of the second file -1; otherwise
-- newer ctime sorts first and equal ctimes compare as equal.
def compare_by_ctime (fs : Fs) (a b : Path) : Int :=
  (fs.stat a).elim 1 (fun s1 =>
    (fs.stat b).elim (-1) (fun s2 =>
      if s1.ctime > s2.ctime then -1
      else if s1.ctime < s2.ctime then 1
      else 0))

-- src/ls_Functions.c lines 82-106.  Same failure convention; newer
-- atime sorts first and equal atimes fall back to strcmp on the names.
def compare_by_access_time (fs : Fs) (a b : Path) : Int :=
  (fs.stat a).elim 1 (fun s1 =>
    (fs.stat b).elim (-1) (fun s2 =>
      if s1.atime < s2.atime then 1
      else if s1.atime > s2.atime then -1
      else strcmp a b))

-- src/ls_Functions.c lines 118-141: both names folded to lowercase,
-- then compared bytewise.
def compare_case_insensitive (a b : Path) : Int :=
  strcmp (a.map tolower) (b.map tolower)

def dotP : Path := [46]

def dotdotP : Path := [46, 46]

-- src/ls_Functions.c lines 154-166: dot and dotdot are answered before
-- the second argument is examined; all other pairs use strcmp.
def compare_with_hidden (a b : Path) : Int :=
  if a = dotP then -1
  else if a = dotdotP then -1
  else if b = dotP then 1
  else if b = dotdotP then 1
  else strcmp a b

-- qsort with a C comparator, modelled by the stable insertion sort:
-- x may precede y exactly when the comparator does not order y
-- strictly before x.
def csort (cmp : Path → Path → Int) (l : List Path) : List Path :=
  l.insertionSort (fun a b => cmp a b ≤ 0)

-- The hidden-entry filter shared by do_ls (line 381) and
-- list_directory_long_format (line 492): an entry is dropped exactly
-- when its name starts with a dot while both the hidden flag and the
-- no-sort flag are clear.
def keepEntry (f : Flags) (name : Path) : Bool :=
  !(name.headD 0 == 46 && !f.hidden && !f.noSort)

-- Path construction in do_ls and the first pass of the long format
-- (lines 401-405 and 485-489): a separating slash unless the directory
-- is the root.
def joinPath (dir name : Path) : Path :=
  if dir = [47] then dir ++ name else dir ++ [47] ++ name

-- Path construction in the second pass of the long format (line 526):
-- always a separating slash.
def joinSlash (dir name : Path) : Path := dir ++ [47] ++ name

-- Sort-policy selection in do_ls (lines 390-396).
def do_ls_sort (fs : Fs) (f : Flags) (l : List Path) : List Path :=
  if (f.sortTime || f.sortAccess) && !f.noSort then
    csort (compare_by_access_time fs) l
  else if f.ctimeOpt && !f.noSort then
    csort (compare_by_ctime fs) l
  else if !f.noSort then
    csort compare_with_hidden l
  else l

-- Sort-policy selection in list_directory_long_format (lines 511-518).
def listLong_sort (fs : Fs) (f : Flags) (l : List Path) : List Path :=
  if f.hidden && !f.sortTime && !f.noSort then
    csort compare_with_hidden l
  else if f.sortTime && !f.noSort then
    csort (compare_by_access_time fs) l
  else if !f.noSort then
    csort compare_case_insensitive l
  else l

-- File-type tests on st_mode (the S_ISxxx macros; mask 0o170000).
def isReg (mode : Nat) : Bool := (mode &&& 61440) == 32768

def isDir (mode : Nat) : Bool := (mode &&& 61440) == 16384

def isBlk (mode : Nat) : Bool := (mode &&& 61440) == 24576

def isChr (mode : Nat) : Bool := (mode &&& 61440) == 8192

def isLnk (mode : Nat) : Bool := (mode &&& 61440) == 40960

def isFifo (mode : Nat) : Bool := (mode &&& 61440) == 4096

def isSock (mode : Nat) : Bool := (mode &&& 61440) == 49152

-- Type character of the long format (lines 581-588); the final C else
-- branch prints a literal unknown-type marker, abbreviated here.
def typeChar (mode : Nat) : Char :=
  if isReg mode then '-'
  else if isDir mode then 'd'
  else if isBlk mode then 'b'
  else if isChr mode then 'c'
  else if isLnk mode then 'l'
  else if isFifo mode then 'p'
  else if isSock mode then 's'
  else '?'

-- Permission string construction (lines 591-606).  Bit numbers: 8..0
-- are the rwxrwxrwx bits from S_IRUSR down to S_IXOTH, 11 is S_ISUID,
-- 10 is S_ISGID, 9 is S_ISVTX.
def permString (mode : Nat) : List Char :=
  let p := List.replicate 9 '-'
  let p := if mode.testBit 8 then p.set 0 'r' else p
  let p := if mode.testBit 7 then p.set 1 'w' else p
  let p := if mode.testBit 6 then p.set 2 (if mode.testBit 11 then 's' else 'x') else p
  let p := if mode.testBit 5 then p.set 3 'r' else p
  let p := if mode.testBit 4 then p.set 4 'w' else p
  let p := if mode.testBit 3 then p.set 5 (if mode.testBit 10 then 's' else 'x') else p
  let p := if mode.testBit 2 then p.set 6 'r' else p
  let p := if mode.testBit 1 then p.set 7 'w' else p
  let p := if mode.testBit 0 then p.set 8 (if mode.testBit 9 then 't' else 'x') else p
  p

-- The permission string as the specification describes it, position by
-- position: a 9-character rwxrwxrwx template, unset bits rendered as a
-- dash, the three execute positions showing s, s and t when setuid,
-- setgid and sticky are also set.  Stated from the words of the
-- specification to compare against the code above.
def permStringSpec (mode : Nat) : List Char :=
  [if mode.testBit 8 then 'r' else '-',
   if mode.testBit 7 then 'w' else '-',
   if mode.testBit 6 then (if mode.testBit 11 then 's' else 'x') else '-',
   if mode.testBit 5 then 'r' else '-',
   if mode.testBit 4 then 'w' else '-',
   if mode.testBit 3 then (if mode.testBit 10 then 's' else 'x') else '-',
   if mode.testBit 2 then 'r' else '-',
   if mode.testBit 1 then 'w' else '-',
   if mode.testBit 0 then (if mode.testBit 9 then 't' else 'x') else '-']

-- Outcome of print_longformat (lines 562-648) for one path: skipped
-- when the initial lstat fails (only a diagnostic is written);
-- truncated when the owner or group lookup fails after the type
-- character was already printed; otherwise a full line.  The localtime
-- and strftime calls are modelled as total, the formatted time being
-- represented by the raw mtime.
inductive RenderResult
  | skipped
  | truncated
  | line (tchar : Char) (perms : List Char) (nlink : Nat) (owner : Path)
      (group : Path) (size : Nat) (mtime : Int) (name : Path)
deriving DecidableEq

def RenderResult.isLine : RenderResult → Bool
  | .line .. => true
  | _ => false

def print_longformat (fs : Fs) (path : Path) : RenderResult :=
  (fs.lstat path).elim .skipped (fun st =>
    (fs.pw st.uid).elim .truncated (fun owner =>
      (fs.grp st.gid).elim .truncated (fun g =>
        .line (typeChar st.mode) (permString st.mode) st.nlink owner g
          st.size st.mtime path)))

-- First pass of list_directory_long_format (lines 483-506): enumerate,
-- filter hidden names, store each surviving name, stat its full path
-- and accumulate the size; a failing stat makes the C function return
-- immediately.  Result: stored names, accumulated size, abort flag.
def firstPass (fs : Fs) (f : Flags) (dir : Path) : List Path → List Path × Nat × Bool
  | [] => ([], 0, false)
  | e :: es =>
    if keepEntry f e then
      (fs.stat (joinPath dir e)).elim ([e], 0, true) (fun st =>
        let r := firstPass fs f dir es
        (e :: r.1, st.size + r.2.1, r.2.2))
    else firstPass fs f dir es

-- Observable behaviour of do_ls (lines 352-444): the collected names,
-- the sorted order, the names actually printed (print_with_color prints
-- nothing for an entry whose lstat fails, lines 208-211), whether the
-- routine returned with the directory handle still open, and whether
-- the path was rejected with a diagnostic.
structure LsResult where
  kept : List Path
  sortedNames : List Path
  printed : List Path
  leaked : Bool
  errored : Bool
deriving DecidableEq

def doLsDir (fs : Fs) (f : Flags) (input : Path) (es : List Path) : LsResult :=
  let kept := es.filter (keepEntry f)
  let sorted := do_ls_sort fs f kept
  ⟨kept, sorted, sorted.filter (fun n => (fs.lstat (joinPath input n)).isSome),
    false, false⟩

def doLsFile (fs : Fs) (input : Path) : LsResult :=
  (fs.stat input).elim ⟨[], [], [], false, true⟩ (fun st =>
    if isReg st.mode then
      ⟨[], [], if (fs.lstat input).isSome then [input] else [], false, false⟩
    else ⟨[], [], [], false, true⟩)

def do_ls (fs : Fs) (f : Flags) (input : Path) : LsResult :=
  (fs.dirs input).elim (doLsFile fs input) (doLsDir fs f input)

-- Observable behaviour of list_directory_long_format (lines 453-552):
-- collected names, the printed total header (none when no header was
-- printed), the names for which a full long-format line was emitted,
-- whether the routine returned with the directory handle still open,
-- and whether the first pass aborted.
structure LongResult where
  collected : List Path
  totalKB : Option Nat
  rendered : List Path
  leaked : Bool
  aborted : Bool
deriving DecidableEq

def listLongDir (fs : Fs) (f : Flags) (input : Path) (es : List Path) : LongResult :=
  let fp := firstPass fs f input es
  if fp.2.2 then ⟨fp.1, none, [], true, true⟩
  else
    let sorted := listLong_sort fs f fp.1
    ⟨fp.1, some (fp.2.1 / 1024),
      sorted.filter (fun n => (print_longformat fs (joinSlash input n)).isLine),
      false, false⟩

def listLongFile (fs : Fs) (input : Path) : LongResult :=
  (fs.stat input).elim ⟨[], none, [], false, false⟩ (fun st =>
    if isReg st.mode then
      ⟨[], none,
        if (print_longformat fs input).isLine then [input] else [], false, false⟩
    else ⟨[], none, [], false, false⟩)

def list_directory_long_format (fs : Fs) (f : Flags) (input : Path) : LongResult :=
  (fs.dirs input).elim (listLongFile fs input) (listLongDir fs f input)

-- Timestamp and size of a path as the environment reports them, with a
-- default for failing lookups; used only to state theorems.
def atimeOf (fs : Fs) (p : Path) : Int := ((fs.stat p).map Stat.atime).getD 0

def mtimeOf (fs : Fs) (p : Path) : Int := ((fs.stat p).map Stat.mtime).getD 0

def statSize (fs : Fs) (p : Path) : Nat := ((fs.stat p).map Stat.size).getD 0

/-! Concrete data used by witnesses and counterexamples.  Names are
byte strings: a = [97], b = [98], c = [99], d = [100]. -/

def strA : Path := [97]

def strB : Path := [98]

def strC : Path := [99]

def dotH : Path := [46, 104]

def strBanana : Path := [66, 97, 110, 97, 110, 97]

def strApple : Path := [97, 112, 112, 108, 101]

def strCherry : Path := [67, 104, 101, 114, 114, 121]

-- The listed directory, a relative path distinct from the working
-- directory of the process.
def dirP : Path := [100]

-- A plain regular file record (mode 0o100644).
def stReg : Stat := ⟨33188, 1, 0, 0, 100, 0, 0, 0, 1⟩

-- atime 5 but mtime 1.
def stA1 : Stat := ⟨33188, 1, 0, 0, 100, 5, 1, 0, 1⟩

-- atime 1 but mtime 9.
def stB1 : Stat := ⟨33188, 1, 0, 0, 100, 1, 9, 0, 2⟩

-- Equal ctimes, used for the tie-break counterexample.
def stEq : Stat := ⟨33188, 1, 0, 0, 100, 0, 0, 7, 1⟩

-- Sizes 1500 and 600 bytes for the total-header witness.
def stSzA : Stat := ⟨33188, 1, 0, 0, 1500, 0, 0, 0, 3⟩

def stSzB : Stat := ⟨33188, 1, 0, 0, 600, 0, 0, 0, 4⟩

-- Environment for the mtime-versus-atime counterexample: both bare
-- names and full paths resolve, and the atime order disagrees with the
-- mtime order.
def fsC1 : Fs :=
  ⟨fun p => if p = dirP then some [strA, strB] else none,
   fun p =>
     if p = strA ∨ p = joinPath dirP strA then some stA1
     else if p = strB ∨ p = joinPath dirP strB then some stB1
     else none,
   fun p =>
     if p = joinPath dirP strA then some stA1
     else if p = joinPath dirP strB then some stB1
     else none,
   fun _ => some [117],
   fun _ => some [103]⟩

-- Environment where the two entries have equal ctimes.
def fsEq : Fs :=
  ⟨fun p => if p = dirP then some [strB, strA] else none,
   fun p => if p = strA ∨ p = strB then some stEq else none,
   fun p =>
     if p = joinPath dirP strA ∨ p = joinPath dirP strB then some stEq
     else none,
   fun _ => some [117],
   fun _ => some [103]⟩

-- Environment in which the stat of one directory entry (b) fails during
-- the long-format first pass while its siblings a and c are fine.
def fsAbort : Fs :=
  ⟨fun p => if p = dirP then some [strA, strB, strC] else none,
   fun p =>
     if p = joinPath dirP strA ∨ p = joinPath dirP strC then some stReg
     else none,
   fun _ => some stReg,
   fun _ => some [117],
   fun _ => some [103]⟩

-- Fully healthy environment listing Banana, apple, Cherry.
def fsCi : Fs :=
  ⟨fun p => if p = dirP then some [strBanana, strApple, strCherry] else none,
   fun _ => some stReg,
   fun _ => some stReg,
   fun _ => some [117],
   fun _ => some [103]⟩

-- Healthy environment with one dotfile and two sized entries.
def fsGood : Fs :=
  ⟨fun p => if p = dirP then some [dotH, strA, strB] else none,
   fun p =>
     if p = joinPath dirP strA then some stSzA
     else if p = joinPath dirP strB then some stSzB
     else if p = joinPath dirP dotH then some stReg
     else none,
   fun _ => some stReg,
   fun _ => some [117],
   fun _ => some [103]⟩

-- Environment for the bare-name quirk: the entry a of directory d does
-- not exist in the working directory (bare stat fails) although its
-- full path resolves; the name b exists in the working directory.
def fsFar : Fs :=
  ⟨fun p => if p = dirP then some [strA] else none,
   fun p =>
     if p = joinPath dirP strA ∨ p = strB then some stReg
     else none,
   fun _ => some stReg,
   fun _ => some [117],
   fun _ => some [103]⟩

def flagsT : Flags := setOpt noFlags 't'

def flagsC : Flags := setOpt noFlags 'c'

def flagsL : Flags := setOpt noFlags 'l'

def flagsLA : Flags := setOpt (setOpt noFlags 'l') 'a'

/-! Helper lemmas about strcmp. -/

theorem nulFree_cons {c : Nat} {s : Path} (h : NulFree (c :: s)) : NulFree s :=
  fun x hx => h x (List.mem_cons_of_mem _ hx)

theorem strcmp_nil_le (c : Path) : strcmp [] c ≤ 0 := by
  cases c with
  | nil => simp [strcmp]
  | cons c cs => simp [strcmp]

theorem strcmp_antisymm : ∀ a b : Path, strcmp a b = -strcmp b a
  | [], [] => rfl
  | [], c :: s => by simp [strcmp]
  | c :: s, [] => by simp [strcmp]
  | c1 :: s1, c2 :: s2 => by
    simp only [strcmp]
    by_cases h : c1 = c2
    · subst h
      simp [strcmp_antisymm s1 s2]
    · have h' : ¬c2 = c1 := fun e => h e.symm
      simp only [if_neg h, if_neg h']
      omega

theorem strcmp_total (a b : Path) : strcmp a b ≤ 0 ∨ strcmp b a ≤ 0 := by
  have h := strcmp_antisymm a b
  omega

theorem strcmp_eq_zero_iff :
    ∀ a b : Path, NulFree a → NulFree b → (strcmp a b = 0 ↔ a = b)
  | [], [] => by simp [strcmp]
  | [], c :: s => by
    intro _ hb
    have hc : c ≠ 0 := hb c (List.mem_cons_self c s)
    simp only [strcmp]
    constructor
    · intro h; omega
    · intro h; exact absurd h (by simp)
  | c :: s, [] => by
    intro ha _
    have hc : c ≠ 0 := ha c (List.mem_cons_self c s)
    simp only [strcmp]
    constructor
    · intro h; omega
    · intro h; exact absurd h (by simp)
  | c1 :: s1, c2 :: s2 => by
    intro ha hb
    simp only [strcmp]
    by_cases h : c1 = c2
    · subst h
      rw [if_pos rfl]
      rw [strcmp_eq_zero_iff s1 s2 (nulFree_cons ha) (nulFree_cons hb)]
      simp
    · rw [if_neg h]
      constructor
      · intro hz; omega
      · intro hz
        exact absurd (List.cons.injEq .. ▸ hz).1 h

theorem strcmp_le_trans : ∀ a b c : Path, NulFree a → NulFree b → NulFree c →
    strcmp a b ≤ 0 → strcmp b c ≤ 0 → strcmp a c ≤ 0
  | [], _, c, _, _, _, _, _ => strcmp_nil_le c
  | x :: a, [], c, ha, _, _, h1, _ => by
    have hx : x ≠ 0 := ha x (List.mem_cons_self x a)
    simp only [strcmp] at h1
    omega
  | x :: a, y :: b, [], _, hb, _, _, h2 => by
    have hy : y ≠ 0 := hb y (List.mem_cons_self y b)
    simp only [strcmp] at h2
    omega
  | x :: a, y :: b, z :: c, ha, hb, hc, h1, h2 => by
    simp only [strcmp] at h1 h2 ⊢
    by_cases hxy : x = y
    · subst hxy
      rw [if_pos rfl] at h1
      by_cases hxz : x = z
      · subst hxz
        rw [if_pos rfl] at h2 ⊢
        exact strcmp_le_trans a b c (nulFree_cons ha) (nulFree_cons hb)
          (nulFree_cons hc) h1 h2
      · rw [if_neg hxz] at h2 ⊢
        exact h2
    · rw [if_neg hxy] at h1
      by_cases hyz : y = z
      · subst hyz
        rw [if_neg hxy]
        exact h1
      · rw [if_neg hyz] at h2
        by_cases hxz : x = z
        · exfalso
          subst hxz
          omega
        · rw [if_neg hxz]
          omega

theorem nulFree_map_tolower (p : Path) (h : NulFree p) : NulFree (p.map tolower) := by
  intro c hc
  rcases List.mem_map.mp hc with ⟨x, hx, rfl⟩
  have hx0 := h x hx
  unfold tolower
  split_ifs <;> omega

/-! Sortedness of the insertion sort for a relation that is total and
transitive on the elements actually present, and a congruence lemma:
the sorted output depends only on the comparator decisions on pairs
drawn from the input list. -/

theorem pairwise_orderedInsert {α : Type} (r : α → α → Prop) [DecidableRel r]
    (P : α → Prop)
    (tot : ∀ x y, P x → P y → r x y ∨ r y x)
    (tr : ∀ x y z, P x → P y → P z → r x y → r y z → r x z)
    (a : α) (ha : P a) (l : List α) :
    (∀ x ∈ l, P x) → l.Pairwise r → (l.orderedInsert r a).Pairwise r := by
  induction l with
  | nil =>
    intro _ _
    simp
  | cons b l ih =>
    intro hl hp
    rcases List.pairwise_cons.mp hp with ⟨hbl, hpl⟩
    have hb : P b := hl b (List.mem_cons_self b l)
    simp only [List.orderedInsert]
    by_cases h : r a b
    · rw [if_pos h]
      refine List.pairwise_cons.mpr ⟨?_, hp⟩
      intro x hx
      rcases List.mem_cons.mp hx with rfl | hx
      · exact h
      · exact tr a b x ha hb (hl x (List.mem_cons_of_mem _ hx)) h (hbl x hx)
    · rw [if_neg h]
      refine List.pairwise_cons.mpr
        ⟨?_, ih (fun x hx => hl x (List.mem_cons_of_mem _ hx)) hpl⟩
      intro x hx
      rcases (List.mem_orderedInsert r).mp hx with hxa | hx
      · rw [hxa]
        rcases tot a b ha hb with h' | h'
        · exact absurd h' h
        · exact h'
      · exact hbl x hx

theorem pairwise_insertionSort {α : Type} (r : α → α → Prop) [DecidableRel r]
    (P : α → Prop)
    (tot : ∀ x y, P x → P y → r x y ∨ r y x)
    (tr : ∀ x y z, P x → P y → P z → r x y → r y z → r x z)
    (l : List α) :
    (∀ x ∈ l, P x) → (l.insertionSort r).Pairwise r := by
  induction l with
  | nil =>
    intro _
    simp
  | cons a l ih =>
    intro hl
    simp only [List.insertionSort]
    refine pairwise_orderedInsert r P tot tr a (hl a (List.mem_cons_self a l)) _
      ?_ (ih (fun x hx => hl x (List.mem_cons_of_mem _ hx)))
    intro x hx
    exact hl x (List.mem_cons_of_mem _ ((List.perm_insertionSort r l).mem_iff.mp hx))

theorem orderedInsert_congr {α : Type} (r1 r2 : α → α → Prop)
    [DecidableRel r1] [DecidableRel r2] (a : α) (l : List α)
    (h : ∀ b ∈ l, r1 a b ↔ r2 a b) :
    l.orderedInsert r1 a = l.orderedInsert r2 a := by
  induction l with
  | nil => rfl
  | cons b l ih =>
    simp only [List.orderedInsert]
    by_cases hb : r1 a b
    · rw [if_pos hb, if_pos ((h b (List.mem_cons_self b l)).mp hb)]
    · rw [if_neg hb, if_neg (fun h2 => hb ((h b (List.mem_cons_self b l)).mpr h2)),
        ih (fun x hx => h x (List.mem_cons_of_mem _ hx))]

theorem insertionSort_congr {α : Type} (r1 r2 : α → α → Prop)
    [DecidableRel r1] [DecidableRel r2] (l : List α)
    (h : ∀ a ∈ l, ∀ b ∈ l, r1 a b ↔ r2 a b) :
    l.insertionSort r1 = l.insertionSort r2 := by
  induction l with
  | nil => rfl
  | cons a l ih =>
    simp only [List.insertionSort]
    rw [ih (fun x hx y hy =>
      h x (List.mem_cons_of_mem _ hx) y (List.mem_cons_of_mem _ hy))]
    exact orderedInsert_congr r1 r2 a _ (fun b hb =>
      h a (List.mem_cons_self a l) b
        (List.mem_cons_of_mem _ ((List.perm_insertionSort r2 l).mem_iff.mp hb)))

/-! Semantic lemmas about the translated comparators. -/

theorem compare_by_access_time_ok (fs : Fs) (a b : Path) (s1 s2 : Stat)
    (h1 : fs.stat a = some s1) (h2 : fs.stat b = some s2) :
    compare_by_access_time fs a b =
      (if s1.atime < s2.atime then 1
       else if s1.atime > s2.atime then -1
       else strcmp a b) := by
  simp [compare_by_access_time, h1, h2]

theorem compare_by_ctime_ok (fs : Fs) (a b : Path) (s1 s2 : Stat)
    (h1 : fs.stat a = some s1) (h2 : fs.stat b = some s2) :
    compare_by_ctime fs a b =
      (if s1.ctime > s2.ctime then -1
       else if s1.ctime < s2.ctime then 1
       else 0) := by
  simp [compare_by_ctime, h1, h2]

theorem atime_ge_of_cmpA_le (fs : Fs) (a b : Path) (s1 s2 : Stat)
    (h1 : fs.stat a = some s1) (h2 : fs.stat b = some s2)
    (h : compare_by_access_time fs a b ≤ 0) : s2.atime ≤ s1.atime := by
  rw [compare_by_access_time_ok fs a b s1 s2 h1 h2] at h
  split_ifs at h <;> omega

theorem ctime_ge_of_cmpC_le (fs : Fs) (a b : Path) (s1 s2 : Stat)
    (h1 : fs.stat a = some s1) (h2 : fs.stat b = some s2)
    (h : compare_by_ctime fs a b ≤ 0) : s2.ctime ≤ s1.ctime := by
  rw [compare_by_ctime_ok fs a b s1 s2 h1 h2] at h
  split_ifs at h <;> omega

theorem cmpA_tot (fs : Fs) (x y : Path)
    (hx : (fs.stat x).isSome = true) (hy : (fs.stat y).isSome = true) :
    compare_by_access_time fs x y ≤ 0 ∨ compare_by_access_time fs y x ≤ 0 := by
  rcases Option.isSome_iff_exists.mp hx with ⟨sx, hsx⟩
  rcases Option.isSome_iff_exists.mp hy with ⟨sy, hsy⟩
  rw [compare_by_access_time_ok fs x y sx sy hsx hsy,
    compare_by_access_time_ok fs y x sy sx hsy hsx]
  have h := strcmp_antisymm x y
  split_ifs <;> omega

theorem cmpA_trans (fs : Fs) (x y z : Path)
    (hx : (fs.stat x).isSome = true) (hy : (fs.stat y).isSome = true)
    (hz : (fs.stat z).isSome = true)
    (hnx : NulFree x) (hny : NulFree y) (hnz : NulFree z)
    (h1 : compare_by_access_time fs x y ≤ 0)
    (h2 : compare_by_access_time fs y z ≤ 0) :
    compare_by_access_time fs x z ≤ 0 := by
  rcases Option.isSome_iff_exists.mp hx with ⟨sx, hsx⟩
  rcases Option.isSome_iff_exists.mp hy with ⟨sy, hsy⟩
  rcases Option.isSome_iff_exists.mp hz with ⟨sz, hsz⟩
  rw [compare_by_access_time_ok fs x y sx sy hsx hsy] at h1
  rw [compare_by_access_time_ok fs y z sy sz hsy hsz] at h2
  rw [compare_by_access_time_ok fs x z sx sz hsx hsz]
  split_ifs at h1 h2 ⊢ <;>
    first
      | omega
      | exact strcmp_le_trans x y z hnx hny hnz h1 h2

theorem cmpC_tot (fs : Fs) (x y : Path)
    (hx : (fs.stat x).isSome = true) (hy : (fs.stat y).isSome = true) :
    compare_by_ctime fs x y ≤ 0 ∨ compare_by_ctime fs y x ≤ 0 := by
  rcases Option.isSome_iff_exists.mp hx with ⟨sx, hsx⟩
  rcases Option.isSome_iff_exists.mp hy with ⟨sy, hsy⟩
  rw [compare_by_ctime_ok fs x y sx sy hsx hsy,
    compare_by_ctime_ok fs y x sy sx hsy hsx]
  split_ifs <;> omega

theorem cmpC_trans (fs : Fs) (x y z : Path)
    (hx : (fs.stat x).isSome = true) (hy : (fs.stat y).isSome = true)
    (hz : (fs.stat z).isSome = true)
    (h1 : compare_by_ctime fs x y ≤ 0)
    (h2 : compare_by_ctime fs y z ≤ 0) :
    compare_by_ctime fs x z ≤ 0 := by
  rcases Option.isSome_iff_exists.mp hx with ⟨sx, hsx⟩
  rcases Option.isSome_iff_exists.mp hy with ⟨sy, hsy⟩
  rcases Option.isSome_iff_exists.mp hz with ⟨sz, hsz⟩
  rw [compare_by_ctime_ok fs x y sx sy hsx hsy] at h1
  rw [compare_by_ctime_ok fs y z sy sz hsy hsz] at h2
  rw [compare_by_ctime_ok fs x z sx sz hsx hsz]
  split_ifs at h1 h2 ⊢ <;> omega

theorem ci_trans (x y z : Path)
    (hnx : NulFree x) (hny : NulFree y) (hnz : NulFree z)
    (h1 : compare_case_insensitive x y ≤ 0)
    (h2 : compare_case_insensitive y z ≤ 0) :
    compare_case_insensitive x z ≤ 0 :=
  strcmp_le_trans (x.map tolower) (y.map tolower) (z.map tolower)
    (nulFree_map_tolower x hnx) (nulFree_map_tolower y hny)
    (nulFree_map_tolower z hnz) h1 h2

/-! Unfolding lemmas for the filter and the first pass. -/

theorem keepEntry_iff (f : Flags) (e : Path) :
    keepEntry f e = true ↔
      ¬(e.headD 0 = 46 ∧ f.hidden = false ∧ f.noSort = false) := by
  cases hh : f.hidden <;> cases hn : f.noSort <;>
    simp [keepEntry, hh, hn]

theorem firstPass_cons_some (fs : Fs) (f : Flags) (dir e : Path) (es : List Path)
    (st : Stat) (hk : keepEntry f e = true)
    (hst : fs.stat (joinPath dir e) = some st) :
    firstPass fs f dir (e :: es) =
      (e :: (firstPass fs f dir es).1,
       st.size + (firstPass fs f dir es).2.1,
       (firstPass fs f dir es).2.2) := by
  simp [firstPass, hk, hst]

theorem firstPass_cons_none (fs : Fs) (f : Flags) (dir e : Path) (es : List Path)
    (hk : keepEntry f e = true)
    (hst : fs.stat (joinPath dir e) = none) :
    firstPass fs f dir (e :: es) = ([e], 0, true) := by
  simp [firstPass, hk, hst]

theorem firstPass_cons_skip (fs : Fs) (f : Flags) (dir e : Path) (es : List Path)
    (hk : keepEntry f e = false) :
    firstPass fs f dir (e :: es) = firstPass fs f dir es := by
  simp [firstPass, hk]

theorem firstPass_no_abort (fs : Fs) (f : Flags) (dir : Path) :
    ∀ es : List Path,
      (∀ e ∈ es, keepEntry f e = true → (fs.stat (joinPath dir e)).isSome = true) →
        (firstPass fs f dir es).2.2 = false ∧
        (firstPass fs f dir es).1 = es.filter (keepEntry f) ∧
        (firstPass fs f dir es).2.1 =
          ((es.filter (keepEntry f)).map (fun e => statSize fs (joinPath dir e))).sum
  | [] => by
    intro _
    simp [firstPass]
  | e :: es => by
    intro hok
    have ih := firstPass_no_abort fs f dir es
      (fun x hx => hok x (List.mem_cons_of_mem _ hx))
    by_cases hk : keepEntry f e = true
    · have hsome := hok e (List.mem_cons_self e es) hk
      rcases Option.isSome_iff_exists.mp hsome with ⟨st, hst⟩
      rw [firstPass_cons_some fs f dir e es st hk hst,
        List.filter_cons_of_pos hk]
      refine ⟨ih.1, ?_, ?_⟩
      · rw [ih.2.1]
      · rw [List.map_cons, List.sum_cons, ih.2.2]
        simp [statSize, hst]
    · have hk' : keepEntry f e = false := by
        cases h : keepEntry f e
        · rfl
        · exact absurd h hk
      rw [firstPass_cons_skip fs f dir e es hk',
        List.filter_cons_of_neg (by simp [hk'])]
      exact ih

theorem firstPass_abort_iff (fs : Fs) (f : Flags) (dir : Path) :
    ∀ es : List Path,
      (firstPass fs f dir es).2.2 = true ↔
        ∃ e ∈ es, keepEntry f e = true ∧ fs.stat (joinPath dir e) = none
  | [] => by simp [firstPass]
  | e :: es => by
    by_cases hk : keepEntry f e = true
    · cases hst : fs.stat (joinPath dir e) with
      | none =>
        rw [firstPass_cons_none fs f dir e es hk hst]
        constructor
        · intro _
          exact ⟨e, List.mem_cons_self e es, hk, hst⟩
        · intro _
          rfl
      | some st =>
        rw [firstPass_cons_some fs f dir e es st hk hst]
        simp only []
        rw [firstPass_abort_iff fs f dir es]
        constructor
        · rintro ⟨x, hx, hkx, hnx⟩
          exact ⟨x, List.mem_cons_of_mem _ hx, hkx, hnx⟩
        · rintro ⟨x, hx, hkx, hnx⟩
          rcases List.mem_cons.mp hx with hxe | hx
          · rw [hxe, hst] at hnx
            exact absurd hnx (by simp)
          · exact ⟨x, hx, hkx, hnx⟩
    · have hk' : keepEntry f e = false := by
        cases h : keepEntry f e
        · rfl
        · exact absurd h hk
      rw [firstPass_cons_skip fs f dir e es hk']
      rw [firstPass_abort_iff fs f dir es]
      constructor
      · rintro ⟨x, hx, hkx, hnx⟩
        exact ⟨x, List.mem_cons_of_mem _ hx, hkx, hnx⟩
      · rintro ⟨x, hx, hkx, hnx⟩
        rcases List.mem_cons.mp hx with hxe | hx
        · rw [hxe, hk'] at hkx
          exact absurd hkx (by simp)
        · exact ⟨x, hx, hkx, hnx⟩

theorem isLine_iff (fs : Fs) (p : Path) :
    (print_longformat fs p).isLine = true ↔
      ∃ st, fs.lstat p = some st ∧ (fs.pw st.uid).isSome = true ∧
        (fs.grp st.gid).isSome = true := by
  cases hl : fs.lstat p with
  | none => simp [print_longformat, hl, RenderResult.isLine]
  | some st =>
    cases hp : fs.pw st.uid with
    | none => simp [print_longformat, hl, hp, RenderResult.isLine]
    | some ow =>
      cases hg : fs.grp st.gid with
      | none => simp [print_longformat, hl, hp, hg, RenderResult.isLine]
      | some g => simp [print_longformat, hl, hp, hg, RenderResult.isLine]

/-! Unfolding lemmas for the two listing routines. -/

theorem do_ls_dir (fs : Fs) (f : Flags) (input : Path) (es : List Path)
    (h : fs.dirs input = some es) : do_ls fs f input = doLsDir fs f input es := by
  unfold do_ls
  rw [h]
  rfl

theorem doLsDir_kept (fs : Fs) (f : Flags) (input : Path) (es : List Path) :
    (doLsDir fs f input es).kept = es.filter (keepEntry f) := rfl

theorem doLsDir_sortedNames (fs : Fs) (f : Flags) (input : Path) (es : List Path) :
    (doLsDir fs f input es).sortedNames = do_ls_sort fs f (es.filter (keepEntry f)) := rfl

theorem doLsDir_printed (fs : Fs) (f : Flags) (input : Path) (es : List Path) :
    (doLsDir fs f input es).printed =
      (do_ls_sort fs f (es.filter (keepEntry f))).filter
        (fun n => (fs.lstat (joinPath input n)).isSome) := rfl

theorem listLong_dir (fs : Fs) (f : Flags) (input : Path) (es : List Path)
    (h : fs.dirs input = some es) :
    list_directory_long_format fs f input = listLongDir fs f input es := by
  unfold list_directory_long_format
  rw [h]
  rfl

theorem listLongDir_abort (fs : Fs) (f : Flags) (input : Path) (es : List Path)
    (h : (firstPass fs f input es).2.2 = true) :
    listLongDir fs f input es = ⟨(firstPass fs f input es).1, none, [], true, true⟩ := by
  unfold listLongDir
  rw [if_pos h]

theorem listLongDir_ok (fs : Fs) (f : Flags) (input : Path) (es : List Path)
    (h : (firstPass fs f input es).2.2 = false) :
    listLongDir fs f input es =
      ⟨(firstPass fs f input es).1,
       some ((firstPass fs f input es).2.1 / 1024),
       (listLong_sort fs f (firstPass fs f input es).1).filter
         (fun n => (print_longformat fs (joinSlash input n)).isLine),
       false, false⟩ := by
  unfold listLongDir
  rw [if_neg (by rw [h]; simp)]

theorem compare_by_access_time_congr (fs1 fs2 : Fs) (a b : Path)
    (ha : fs1.stat a = fs2.stat a) (hb : fs1.stat b = fs2.stat b) :
    compare_by_access_time fs1 a b = compare_by_access_time fs2 a b := by
  unfold compare_by_access_time
  rw [ha, hb]

theorem compare_by_ctime_congr (fs1 fs2 : Fs) (a b : Path)
    (ha : fs1.stat a = fs2.stat a) (hb : fs1.stat b = fs2.stat b) :
    compare_by_ctime fs1 a b = compare_by_ctime fs2 a b := by
  unfold compare_by_ctime
  rw [ha, hb]

theorem permString_eq_spec (m : Nat) : permString m = permStringSpec m := by
  unfold permString permStringSpec
  cases h8 : m.testBit 8 <;> cases h7 : m.testBit 7 <;> cases h6 : m.testBit 6 <;>
    cases h5 : m.testBit 5 <;> cases h4 : m.testBit 4 <;> cases h3 : m.testBit 3 <;>
    cases h2 : m.testBit 2 <;> cases h1 : m.testBit 1 <;> cases h0 : m.testBit 0 <;>
    rfl

/-! The claim theorems. -/

/-- Claim C1, counterexample: with the sort-by-modification-time option
t set (and noSort unset), the printed entries of the listed directory
are not ordered newest-first by mtime.  In the environment fsC1 the
output order is a then b, yet a has the strictly smaller mtime: the
code sorts by access time, because option t falls through to the
access-time flag in the parser and do_ls hands qsort the access-time
comparator. -/
theorem C1_cex_not_sorted_by_mtime :
    (do_ls fsC1 flagsT dirP).printed = [strA, strB] ∧
    mtimeOf fsC1 strA < mtimeOf fsC1 strB := by
  constructor <;> decide

/-- Claim C1, amended: when the sort-by-modification-time option (or the
access-time option, with which it shares its effect) is set and noSort
is unset, the entries of a listed directory are ordered newest-first by
ACCESS time: if the bare-name stat of every enumerated entry succeeds,
every pair of adjacent printed entries has non-increasing atime. -/
theorem C1_time_sort_orders_by_access_time (fs : Fs) (f : Flags) (input : Path)
    (es : List Path) (hdir : fs.dirs input = some es)
    (hf : ((f.sortTime || f.sortAccess) && !f.noSort) = true)
    (hok : ∀ n ∈ es, (fs.stat n).isSome = true ∧ NulFree n) :
    ((do_ls fs f input).printed).Chain' (fun x y => atimeOf fs y ≤ atimeOf fs x) := by
  rw [do_ls_dir fs f input es hdir, doLsDir_printed]
  have hsort : do_ls_sort fs f (es.filter (keepEntry f)) =
      csort (compare_by_access_time fs) (es.filter (keepEntry f)) := by
    unfold do_ls_sort
    rw [if_pos hf]
  rw [hsort]
  have hmem : ∀ x ∈ es.filter (keepEntry f), (fs.stat x).isSome = true ∧ NulFree x :=
    fun x hx => hok x (List.mem_filter.mp hx).1
  have hpair := pairwise_insertionSort
    (fun a b => compare_by_access_time fs a b ≤ 0)
    (fun n => (fs.stat n).isSome = true ∧ NulFree n)
    (fun x y hx hy => cmpA_tot fs x y hx.1 hy.1)
    (fun x y z hx hy hz h1 h2 =>
      cmpA_trans fs x y z hx.1 hy.1 hz.1 hx.2 hy.2 hz.2 h1 h2)
    (es.filter (keepEntry f)) hmem
  have hpair2 : (csort (compare_by_access_time fs) (es.filter (keepEntry f))).Pairwise
      (fun x y => atimeOf fs y ≤ atimeOf fs x) := by
    refine hpair.imp_of_mem ?_
    intro a b ha hb hr
    have hamem := hmem a ((List.perm_insertionSort _ _).mem_iff.mp ha)
    have hbmem := hmem b ((List.perm_insertionSort _ _).mem_iff.mp hb)
    rcases Option.isSome_iff_exists.mp hamem.1 with ⟨sa, hsa⟩
    rcases Option.isSome_iff_exists.mp hbmem.1 with ⟨sb, hsb⟩
    have hge := atime_ge_of_cmpA_le fs a b sa sb hsa hsb hr
    simpa [atimeOf, hsa, hsb] using hge
  exact (hpair2.sublist (List.filter_sublist _)).chain'

/-- Claim C1, witness of the amended theorem at a concrete input. -/
theorem C1_witness :
    ((do_ls fsC1 flagsT dirP).printed).Chain'
      (fun x y => atimeOf fsC1 y ≤ atimeOf fsC1 x) :=
  C1_time_sort_orders_by_access_time fsC1 flagsT dirP [strA, strB]
    (by decide) (by decide) (by decide)

/-- Claim C2, counterexample: in the long-format listing a failed stat
for one entry is fatal to the whole directory listing, not only to that
entry.  In fsAbort the entry b has a failing stat while its sibling c
has healthy stat and lstat records, yet nothing at all is rendered. -/
theorem C2_cex_stat_failure_aborts_listing :
    (list_directory_long_format fsAbort flagsL dirP).rendered = [] ∧
    (fsAbort.stat (joinPath dirP strC)).isSome = true ∧
    (fsAbort.lstat (joinSlash dirP strC)).isSome = true := by
  constructor
  · decide
  · constructor <;> decide

/-- Claim C2, amended: a metadata failure at render time is per-entry
non-fatal: in do_ls an entry whose lstat fails is skipped and siblings
continue, and in the long format an entry whose render-time lstat or
owner or group lookup fails loses only its own line.  However a stat
failure during the long-format first pass (size accumulation) aborts
the whole directory listing; this theorem covers the non-aborting case,
whose hypothesis is that the first-pass stat of every kept entry
succeeds. -/
theorem C2_metadata_failure_granularity (fs : Fs) (f : Flags) (input : Path)
    (es : List Path) (hdir : fs.dirs input = some es)
    (hok : ∀ e ∈ es, keepEntry f e = true → (fs.stat (joinPath input e)).isSome = true) :
    (list_directory_long_format fs f input).aborted = false ∧
    (list_directory_long_format fs f input).leaked = false ∧
    (∀ n, n ∈ (list_directory_long_format fs f input).rendered ↔
      (n ∈ listLong_sort fs f (es.filter (keepEntry f)) ∧
       ∃ st, fs.lstat (joinSlash input n) = some st ∧
         (fs.pw st.uid).isSome = true ∧ (fs.grp st.gid).isSome = true)) ∧
    (∀ n, n ∈ (do_ls fs f input).printed ↔
      (n ∈ (do_ls fs f input).sortedNames ∧
       (fs.lstat (joinPath input n)).isSome = true)) := by
  have hfp := firstPass_no_abort fs f input es hok
  rw [listLong_dir fs f input es hdir, listLongDir_ok fs f input es hfp.1,
    do_ls_dir fs f input es hdir]
  refine ⟨rfl, rfl, ?_, ?_⟩
  · intro n
    show n ∈ (listLong_sort fs f (firstPass fs f input es).1).filter
        (fun n => (print_longformat fs (joinSlash input n)).isLine) ↔ _
    rw [hfp.2.1, List.mem_filter]
    constructor
    · intro h
      exact ⟨h.1, (isLine_iff fs (joinSlash input n)).mp h.2⟩
    · intro h
      exact ⟨h.1, (isLine_iff fs (joinSlash input n)).mpr h.2⟩
  · intro n
    rw [doLsDir_printed, doLsDir_sortedNames, List.mem_filter]

/-- Claim C2, witness of the amended theorem at a concrete input. -/
theorem C2_witness :
    (list_directory_long_format fsGood flagsL dirP).aborted = false :=
  (C2_metadata_failure_granularity fsGood flagsL dirP [dotH, strA, strB]
    (by decide) (by decide)).1

/-- Claim C3, counterexample: under the change-time sort two entries
with equal ctimes are not ordered by ascending name: the comparator
returns 0 for the pair b, a although strcmp orders a strictly before b,
and the sorted output keeps the enumeration order b then a instead of
the ascending-name order a then b. -/
theorem C3_cex_ctime_no_name_tiebreak :
    compare_by_ctime fsEq strB strA = 0 ∧ 0 < strcmp strB strA ∧
    (do_ls fsEq flagsC dirP).sortedNames = [strB, strA] := by
  refine ⟨by decide, by decide, by decide⟩

/-- Claim C3, amended: for entries whose stat succeeds, the access-time
comparator orders strictly newer atime first and breaks equal atimes by
ascending name (strcmp), while the change-time comparator orders
strictly newer ctime first but compares entries with equal ctimes as
equal, with no name tie-break, leaving their relative order to the
sorting algorithm. -/
theorem C3_time_comparator_semantics (fs : Fs) (a b : Path) (s1 s2 : Stat)
    (h1 : fs.stat a = some s1) (h2 : fs.stat b = some s2) :
    (compare_by_access_time fs a b < 0 ↔
      (s2.atime < s1.atime ∨ (s1.atime = s2.atime ∧ strcmp a b < 0))) ∧
    (compare_by_ctime fs a b < 0 ↔ s2.ctime < s1.ctime) ∧
    (s1.ctime = s2.ctime → compare_by_ctime fs a b = 0) := by
  refine ⟨?_, ?_, ?_⟩
  · rw [compare_by_access_time_ok fs a b s1 s2 h1 h2]
    split_ifs with hlt hgt
    · constructor
      · intro h
        omega
      · intro h
        rcases h with h | ⟨he, _⟩ <;> omega
    · constructor
      · intro _
        left
        omega
      · intro _
        omega
    · constructor
      · intro h
        right
        exact ⟨by omega, h⟩
      · intro h
        rcases h with h | ⟨_, h⟩
        · omega
        · exact h
  · rw [compare_by_ctime_ok fs a b s1 s2 h1 h2]
    split_ifs with hgt hlt
    · constructor
      · intro _
        omega
      · intro _
        omega
    · constructor
      · intro h
        omega
      · intro h
        omega
    · constructor
      · intro h
        omega
      · intro h
        omega
  · intro he
    rw [compare_by_ctime_ok fs a b s1 s2 h1 h2]
    split_ifs <;> omega

/-- Claim C3, witness of the amended theorem at a concrete input. -/
theorem C3_witness : compare_by_ctime fsEq strB strA = 0 :=
  (C3_time_comparator_semantics fsEq strB strA stEq stEq
    (by decide) (by decide)).2.2 rfl

/-- Claim C4, counterexample: the hidden-first comparator is not a
consistent strict ordering: it answers strictly-less for the pair dot,
dotdot and also for the reversed pair dotdot, dot (violating
antisymmetry), and even for dot compared with itself (violating
irreflexivity). -/
theorem C4_cex_comparator_inconsistent :
    compare_with_hidden dotP dotdotP = -1 ∧
    compare_with_hidden dotdotP dotP = -1 ∧
    compare_with_hidden dotP dotP = -1 := by
  refine ⟨by decide, by decide, by decide⟩

/-- Claim C4, amended: away from the names dot and dotdot the
hidden-first comparator is exactly strcmp, which is antisymmetric in
sign and vanishes precisely on equal NUL-free names, so there it is a
consistent strict ordering; dot and dotdot however compare strictly
less than everything, including themselves and each other, so the
comparator is not antisymmetric on them and the placement of dot and
dotdot is an artifact of the sorting algorithm.  The stable insertion
sort of this embedding still sends the enumeration b, dot, a, dotdot
to dot, dotdot, a, b. -/
theorem C4_hidden_comparator_characterization :
    (∀ a b : Path, a ≠ dotP → a ≠ dotdotP → b ≠ dotP → b ≠ dotdotP →
      compare_with_hidden a b = strcmp a b) ∧
    (∀ a b : Path, strcmp a b = -strcmp b a) ∧
    (∀ a b : Path, NulFree a → NulFree b → (strcmp a b = 0 ↔ a = b)) ∧
    (∀ b : Path, compare_with_hidden dotP b = -1 ∧
      compare_with_hidden dotdotP b = -1) ∧
    csort compare_with_hidden [strB, dotP, strA, dotdotP] =
      [dotP, dotdotP, strA, strB] := by
  refine ⟨?_, strcmp_antisymm, strcmp_eq_zero_iff, ?_, by decide⟩
  · intro a b h1 h2 h3 h4
    unfold compare_with_hidden
    rw [if_neg h1, if_neg h2, if_neg h3, if_neg h4]
  · intro b
    constructor
    · unfold compare_with_hidden
      rw [if_pos rfl]
    · unfold compare_with_hidden
      rw [if_neg (by decide), if_pos rfl]

/-- Claim C4, witness of the amended theorem at a concrete input. -/
theorem C4_witness : compare_with_hidden strA strB = strcmp strA strB :=
  C4_hidden_comparator_characterization.1 strA strB
    (by decide) (by decide) (by decide) (by decide)

/-- Claim C5, counterexample: on the long-format path with the
show-hidden flag set (a configuration in which no time-based sort
applies and sorting is not disabled) the entries are NOT ordered
case-insensitively: the hidden-first byte comparator is selected
instead, so Banana and Cherry precede apple, and the adjacent rendered
pair Cherry, apple is out of case-insensitive order. -/
theorem C5_cex_hidden_flag_overrides_case_insensitive :
    (list_directory_long_format fsCi flagsLA dirP).rendered =
      [strBanana, strCherry, strApple] ∧
    0 < compare_case_insensitive strCherry strApple := by
  constructor <;> decide

/-- Claim C5, amended: on the long-format path, when no time-based sort
applies, sorting is not disabled AND the show-hidden flag is unset, the
entries are ordered case-insensitively (both names folded to lowercase
before byte comparison); with the show-hidden flag set the hidden-first
byte comparator is selected instead.  For the healthy directory
Banana, apple, Cherry the rendered long-format order is apple, Banana,
Cherry. -/
theorem C5_long_format_default_sort :
    (∀ (fs : Fs) (f : Flags) (l : List Path),
      f.hidden = false → f.sortTime = false → f.noSort = false →
        listLong_sort fs f l = csort compare_case_insensitive l) ∧
    (∀ l : List Path, (∀ x ∈ l, NulFree x) →
      (csort compare_case_insensitive l).Pairwise
        (fun a b => compare_case_insensitive a b ≤ 0)) ∧
    (list_directory_long_format fsCi flagsL dirP).rendered =
      [strApple, strBanana, strCherry] := by
  refine ⟨?_, ?_, by decide⟩
  · intro fs f l h1 h2 h3
    unfold listLong_sort
    rw [if_neg (by simp [h1]), if_neg (by simp [h2]), if_pos (by simp [h3])]
  · intro l hl
    exact pairwise_insertionSort
      (fun a b => compare_case_insensitive a b ≤ 0) NulFree
      (fun x y _ _ => strcmp_total (x.map tolower) (y.map tolower))
      (fun x y z hx hy hz h1 h2 => ci_trans x y z hx hy hz h1 h2)
      l hl

/-- Claim C5, witness of the amended theorem at a concrete input. -/
theorem C5_witness :
    (csort compare_case_insensitive [strBanana, strApple]).Pairwise
      (fun a b => compare_case_insensitive a b ≤ 0) :=
  C5_long_format_default_sort.2.1 [strBanana, strApple] (by decide)

/-- Claim C6, counterexample: list_directory_long_format can return
with the directory handle still open: in fsAbort the first pass hits a
failing stat and the C function returns before reaching closedir. -/
theorem C6_cex_handle_leak :
    (list_directory_long_format fsAbort flagsL dirP).leaked = true := by
  decide

/-- Claim C6, amended: do_ls closes the directory handle on every exit
path, and list_directory_long_format closes it on every exit path
except the early return taken when the first-pass stat of some kept
entry fails, in which case it returns with the handle still open: the
handle leaks exactly when such an entry exists. -/
theorem C6_directory_handle_release :
    (∀ (fs : Fs) (f : Flags) (input : Path), (do_ls fs f input).leaked = false) ∧
    (∀ (fs : Fs) (f : Flags) (input : Path) (es : List Path),
      fs.dirs input = some es →
        ((list_directory_long_format fs f input).leaked = true ↔
          ∃ e ∈ es, keepEntry f e = true ∧ fs.stat (joinPath input e) = none)) := by
  constructor
  · intro fs f input
    unfold do_ls
    cases h : fs.dirs input with
    | none =>
      simp only [Option.elim]
      unfold doLsFile
      cases h2 : fs.stat input with
      | none => rfl
      | some st =>
        simp only [Option.elim]
        by_cases hR : isReg st.mode = true
        · rw [if_pos hR]
        · rw [if_neg hR]
    | some es =>
      simp only [Option.elim]
      rfl
  · intro fs f input es hdir
    rw [listLong_dir fs f input es hdir]
    cases hab : (firstPass fs f input es).2.2 with
    | true =>
      rw [listLongDir_abort fs f input es hab]
      constructor
      · intro _
        exact (firstPass_abort_iff fs f input es).mp hab
      · intro _
        rfl
    | false =>
      rw [listLongDir_ok fs f input es hab]
      constructor
      · intro h
        exact absurd h (by simp)
      · intro hex
        exact absurd ((firstPass_abort_iff fs f input es).mpr hex)
          (by rw [hab]; simp)

/-- Claim C6, witness of the amended theorem at a concrete
non-aborting input. -/
theorem C6_witness :
    (list_directory_long_format fsGood flagsL dirP).leaked = true ↔
      ∃ e ∈ [dotH, strA, strB], keepEntry flagsL e = true ∧
        fsGood.stat (joinPath dirP e) = none :=
  C6_directory_handle_release.2 fsGood flagsL dirP [dotH, strA, strB] (by decide)

/-- Claim C7: an enumerated directory entry is omitted from the
collected listing exactly when its name starts with a dot while both
the show-hidden option and the no-sort option are unset; in particular
with no-sort set every dotfile is kept.  This holds for the collection
of do_ls and, whenever the first pass completes, for the collection of
the long-format routine. -/
theorem C7_hidden_filter (fs : Fs) (f : Flags) (input : Path) (es : List Path)
    (e : Path) (hdir : fs.dirs input = some es) (he : e ∈ es) :
    (e ∉ (do_ls fs f input).kept ↔
      (e.headD 0 = 46 ∧ f.hidden = false ∧ f.noSort = false)) ∧
    (f.noSort = true → e ∈ (do_ls fs f input).kept) ∧
    ((list_directory_long_format fs f input).aborted = false →
      (e ∉ (list_directory_long_format fs f input).collected ↔
        (e.headD 0 = 46 ∧ f.hidden = false ∧ f.noSort = false))) := by
  rw [do_ls_dir fs f input es hdir]
  have hmem : e ∉ es.filter (keepEntry f) ↔
      (e.headD 0 = 46 ∧ f.hidden = false ∧ f.noSort = false) := by
    rw [List.mem_filter]
    constructor
    · intro h
      by_contra hc
      exact h ⟨he, (keepEntry_iff f e).mpr hc⟩
    · intro hcond hmem2
      exact ((keepEntry_iff f e).mp hmem2.2) hcond
  refine ⟨by rw [doLsDir_kept]; exact hmem, ?_, ?_⟩
  · intro hns
    rw [doLsDir_kept, List.mem_filter]
    exact ⟨he, (keepEntry_iff f e).mpr (by simp [hns])⟩
  · rw [listLong_dir fs f input es hdir]
    intro hnab
    cases hab : (firstPass fs f input es).2.2 with
    | true =>
      rw [listLongDir_abort fs f input es hab] at hnab
      exact absurd hnab (by simp)
    | false =>
      rw [listLongDir_ok fs f input es hab]
      show e ∉ (firstPass fs f input es).1 ↔ _
      have hok : ∀ x ∈ es, keepEntry f x = true →
          (fs.stat (joinPath input x)).isSome = true := by
        intro x hx hkx
        by_contra hns
        have hnone : fs.stat (joinPath input x) = none := by
          cases hsx : fs.stat (joinPath input x) with
          | none => rfl
          | some st =>
            rw [hsx] at hns
            exact absurd rfl hns
        exact absurd ((firstPass_abort_iff fs f input es).mpr ⟨x, hx, hkx, hnone⟩)
          (by rw [hab]; simp)
      rw [(firstPass_no_abort fs f input es hok).2.1]
      exact hmem

/-- Claim C7, witness at a concrete input: the dotfile is omitted under
default flags. -/
theorem C7_witness : dotH ∉ (do_ls fsGood noFlags dirP).kept :=
  (C7_hidden_filter fsGood noFlags dirP [dotH, strA, strB] dotH
    (by decide) (by decide)).1.mpr (by decide)

/-- Claim C8: the long-format permission string is the 9-character
rwxrwxrwx template with unset bits rendered as a dash, the
owner-execute position showing s when setuid is also set, the
group-execute position showing s for setgid and the other-execute
position showing t for the sticky bit (stated by the position-by-
position specification permStringSpec); for a mode with all nine
permission bits plus setuid, setgid and sticky (octal 7777) the string
is exactly rwsrwsrwt. -/
theorem C8_permission_string :
    (∀ m : Nat, permString m = permStringSpec m) ∧
    permString 4095 = ['r', 'w', 's', 'r', 'w', 's', 'r', 'w', 't'] ∧
    (∀ m : Nat, (permString m).length = 9) := by
  refine ⟨permString_eq_spec, by decide, ?_⟩
  intro m
  rw [permString_eq_spec]
  rfl

/-- Claim C9: whenever the long-format listing of a directory emits a
total header, its value is the sum of the sizes in bytes of all listed
(kept) entries divided by 1024, rounding toward zero (floor, the sizes
being non-negative). -/
theorem C9_total_header (fs : Fs) (f : Flags) (input : Path) (es : List Path)
    (N : Nat) (hdir : fs.dirs input = some es)
    (hN : (list_directory_long_format fs f input).totalKB = some N) :
    N = ((es.filter (keepEntry f)).map
      (fun e => statSize fs (joinPath input e))).sum / 1024 := by
  rw [listLong_dir fs f input es hdir] at hN
  cases hab : (firstPass fs f input es).2.2 with
  | true =>
    rw [listLongDir_abort fs f input es hab] at hN
    exact absurd hN (by simp)
  | false =>
    rw [listLongDir_ok fs f input es hab] at hN
    have hok : ∀ x ∈ es, keepEntry f x = true →
        (fs.stat (joinPath input x)).isSome = true := by
      intro x hx hkx
      by_contra hns
      have hnone : fs.stat (joinPath input x) = none := by
        cases hsx : fs.stat (joinPath input x) with
        | none => rfl
        | some st =>
          rw [hsx] at hns
          exact absurd rfl hns
      exact absurd ((firstPass_abort_iff fs f input es).mpr ⟨x, hx, hkx, hnone⟩)
        (by rw [hab]; simp)
    have hsum := (firstPass_no_abort fs f input es hok).2.2
    have hNval : (firstPass fs f input es).2.1 / 1024 = N := Option.some.inj hN
    rw [← hNval, hsum]

/-- Claim C9, witness at a concrete input: sizes 1500 and 600 give a
total header of 2. -/
theorem C9_witness :
    2 = (([dotH, strA, strB].filter (keepEntry flagsL)).map
      (fun e => statSize fsGood (joinPath dirP e))).sum / 1024 :=
  C9_total_header fsGood flagsL dirP [dotH, strA, strB] 2 (by decide) (by decide)

/-- Claim C10: the time-based comparators stat the bare entry name they
are given, not the name joined with the listed directory, so an entry
whose bare name does not resolve takes the stat-failure branch even
when its full path has a healthy record (first part), and the whole
sorting phase of do_ls depends only on the stat results of the bare
names (second part). -/
theorem C10_bare_name_stat :
    (∀ (fs : Fs) (dir name b : Path) (st : Stat),
      fs.stat name = none → fs.stat (joinPath dir name) = some st →
        compare_by_access_time fs name b = 1 ∧
        compare_by_ctime fs name b = 1 ∧
        ((fs.stat b).isSome = true →
          compare_by_access_time fs b name = -1 ∧
          compare_by_ctime fs b name = -1)) ∧
    (∀ (fs1 fs2 : Fs) (f : Flags) (l : List Path),
      (∀ n ∈ l, fs1.stat n = fs2.stat n) →
        do_ls_sort fs1 f l = do_ls_sort fs2 f l) := by
  constructor
  · intro fs dir name b st hnone hjoin
    refine ⟨?_, ?_, ?_⟩
    · simp [compare_by_access_time, hnone]
    · simp [compare_by_ctime, hnone]
    · intro hb
      rcases Option.isSome_iff_exists.mp hb with ⟨sb, hsb⟩
      constructor
      · simp [compare_by_access_time, hsb, hnone]
      · simp [compare_by_ctime, hsb, hnone]
  · intro fs1 fs2 f l hstat
    unfold do_ls_sort
    by_cases h1 : ((f.sortTime || f.sortAccess) && !f.noSort) = true
    · rw [if_pos h1, if_pos h1]
      unfold csort
      apply insertionSort_congr
      intro a ha b hb
      rw [compare_by_access_time_congr fs1 fs2 a b (hstat a ha) (hstat b hb)]
    · rw [if_neg h1, if_neg h1]
      by_cases h2 : (f.ctimeOpt && !f.noSort) = true
      · rw [if_pos h2, if_pos h2]
        unfold csort
        apply insertionSort_congr
        intro a ha b hb
        rw [compare_by_ctime_congr fs1 fs2 a b (hstat a ha) (hstat b hb)]
      · rw [if_neg h2, if_neg h2]

/-- Claim C10, witness at a concrete input: in fsFar the bare name b
resolves but the bare name a does not, so comparisons against a take
the failure branches. -/
theorem C10_witness :
    compare_by_access_time fsFar strB strA = -1 ∧
    compare_by_ctime fsFar strB strA = -1 :=
  (C10_bare_name_stat.1 fsFar dirP strA strB stReg
    (by decide) (by decide)).2.2 (by decide)

end MyLs
